import Mathlib

/-!
Shallow embedding of the keep-in-touch contact manager (src/src/main.rs) and
verification of the specification's claims about it.

The program is a REPL over a keepass database: an in-memory tree of groups and
entries, commands that list, search, edit and export entries, a vCard encoder,
and an external-editor bridge for the Notes field.  Strings are modelled by
Lean `String` (Rust `String` comparison is byte-lexicographic on UTF-8, which
coincides with codepoint-lexicographic order used by Lean's `String` order);
`to_lowercase` is modelled by a codepoint-wise `Char.toLower`, which agrees
with Rust on the ASCII range used throughout the claims.  File and process
effects are modelled by explicit oracle inputs (`Ctx`) and result values
(`StepResult`).
-/

namespace KeepInTouch

/-- keepass `Value`: an entry field value, either plain text or protected
(sensitive).  The repository only ever constructs and matches these two
variants. -/
inductive Value where
  | Unprotected (s : String)
  | Protected (s : String)
deriving DecidableEq, Repr

/-- keepass `Entry`: a contact record.  `fields` is the field map (insertion
semantics of a map: one value per key), `tags` the tag list, `history` the
list of committed snapshots of `(fields, tags)`, most recent first. -/
structure Entry where
  uuid : String
  fields : List (String × Value)
  tags : List String
  history : List (List (String × Value) × List String)
deriving DecidableEq, Repr

/-- Map-insert on the association list backing `fields`: replace the value at
an existing key, otherwise append the binding. -/
def insertAssoc (l : List (String × Value)) (k : String) (v : Value) :
    List (String × Value) :=
  match l with
  | [] => [(k, v)]
  | (k2, v2) :: rest =>
    if k2 = k then (k, v) :: rest else (k2, v2) :: insertAssoc rest k v

/-- keepass `Entry::get`: returns the string content of a field whether it is
protected or not (`None` only when the key is absent). -/
def Entry.get (e : Entry) (key : String) : Option String :=
  match e.fields.lookup key with
  | some (Value.Unprotected s) => some s
  | some (Value.Protected s) => some s
  | none => none

/-- keepass `Entry::get_title`: the `Title` field. -/
def Entry.get_title (e : Entry) : Option String :=
  e.get "Title"

/-- keepass `Node`: a tree node, either an entry or a named group containing
child nodes. -/
inductive Node where
  | entry (e : Entry)
  | group (name : String) (children : List Node)

/-- `get_entry_by_uuid` (main.rs:397): first pre-order entry whose uuid
matches, descending into groups before continuing with later siblings. -/
def get_entry_by_uuid (nodes : List Node) (entry_uuid : String) : Option Entry :=
  match nodes with
  | [] => none
  | Node.group _ children :: rest =>
    match get_entry_by_uuid children entry_uuid with
    | some e => some e
    | none => get_entry_by_uuid rest entry_uuid
  | Node.entry e :: rest =>
    if e.uuid = entry_uuid then some e else get_entry_by_uuid rest entry_uuid

/-- Writing through the `&mut Entry` returned by `get_entry_by_uuid`: replace
the first pre-order entry whose uuid matches by `e2`, leaving everything else
in place. -/
def replaceEntryByUuid (nodes : List Node) (entry_uuid : String) (e2 : Entry) :
    List Node :=
  match nodes with
  | [] => []
  | Node.group nm children :: rest =>
    if (get_entry_by_uuid children entry_uuid).isSome then
      Node.group nm (replaceEntryByUuid children entry_uuid e2) :: rest
    else
      Node.group nm children :: replaceEntryByUuid rest entry_uuid e2
  | Node.entry e :: rest =>
    if e.uuid = entry_uuid then Node.entry e2 :: rest
    else Node.entry e :: replaceEntryByUuid rest entry_uuid e2

/-- Rust `str::to_lowercase`, codepoint-wise (exact on the ASCII range). -/
def toLowerStr (s : String) : String :=
  String.mk (s.data.map Char.toLower)

/-- Substring containment on character lists (Rust `str::contains` with a
string pattern). -/
def containsSeq (needle hay : List Char) : Bool :=
  match hay with
  | [] => needle.isEmpty
  | c :: t => needle.isPrefixOf (c :: t) || containsSeq needle t

/-- Rust `str::contains`: `hay` contains `needle` as a contiguous substring. -/
def strContains (hay needle : String) : Bool :=
  containsSeq needle.data hay.data

/-- The entry case of the `search_entries` loop (main.rs:422-441): one output
line per matching field, in the order Title, Nickname, PhoneNumber.  `st` is
the search term as lowered by the enclosing call.  Title and Nickname are
lowered before the substring test; the PhoneNumber value is compared as-is. -/
def searchEntryLines (st : String) (e : Entry) : List String :=
  let entry_title :=
    match e.get_title with
    | some t => t
    | none => e.uuid
  (match e.get_title with
   | some title =>
     if strContains (toLowerStr title) st then [e.uuid ++ " " ++ title] else []
   | none => []) ++
  (match e.get "Nickname" with
   | some nickname =>
     if strContains (toLowerStr nickname) st then
       [entry_title ++ " " ++ e.uuid ++ " " ++ nickname]
     else []
   | none => []) ++
  (match e.get "PhoneNumber" with
   | some phone_number =>
     if strContains phone_number st then
       [entry_title ++ " " ++ e.uuid ++ " " ++ phone_number]
     else []
   | none => [])

mutual

/-- `search_entries` (main.rs:415): lowers the term once on entry to the
function, then walks the nodes; the recursive call on a group's children
passes the already-lowered term (and lowers it again). -/
def search_entries (nodes : List Node) (search_term : String) : List String :=
  searchLoop (toLowerStr search_term) nodes
termination_by (sizeOf nodes, 1)

/-- The `for node in nodes` loop body of `search_entries`. -/
def searchLoop (st : String) (nodes : List Node) : List String :=
  match nodes with
  | [] => []
  | Node.group _ children :: rest =>
    search_entries children st ++ searchLoop st rest
  | Node.entry e :: rest => searchEntryLines st e ++ searchLoop st rest
termination_by (sizeOf nodes, 0)

end

/-- `get_matching_entries` (main.rs:455): pre-order collection of entries
that have a Title and, when a tag filter is given, carry that tag. -/
def get_matching_entries (nodes : List Node) (tag_option : Option String) :
    List Entry :=
  match nodes with
  | [] => []
  | Node.group _ children :: rest =>
    get_matching_entries children tag_option ++
      get_matching_entries rest tag_option
  | Node.entry e :: rest =>
    (if e.get_title = none then []
     else
       match tag_option with
       | some tag => if e.tags.contains tag then [e] else []
       | none => [e]) ++ get_matching_entries rest tag_option

/-- The `.get_title().unwrap()` used by `display_entries` on entries that are
guaranteed to have a Title (defaulted to make the model total). -/
def titleD (e : Entry) : String :=
  e.get_title.getD ""

/-- The sort order used by `display_entries`' comparator: byte/codepoint
order on titles. -/
def titleLe (e1 e2 : Entry) : Prop :=
  titleD e1 ≤ titleD e2

instance : DecidableRel titleLe :=
  fun a b => inferInstanceAs (Decidable (titleD a ≤ titleD b))

instance : IsTotal Entry titleLe :=
  ⟨fun a b => le_total (titleD a) (titleD b)⟩

instance : IsTrans Entry titleLe :=
  ⟨fun _ _ _ h1 h2 => le_trans h1 h2⟩

/-- The `matching_entries.sort_by(title cmp)` step of `display_entries`
(main.rs:449): Rust's stable sort under the total title order, modelled by
insertion sort (the unique stable sort for a total preorder). -/
def displaySorted (nodes : List Node) (tag_option : Option String) :
    List Entry :=
  List.insertionSort titleLe (get_matching_entries nodes tag_option)

/-- `display_entries` (main.rs:447): one `uuid title` line per sorted entry. -/
def display_entries (nodes : List Node) (tag_option : Option String) :
    List String :=
  (displaySorted nodes tag_option).map (fun e => e.uuid ++ " " ++ titleD e)

/-- Pre-order list of every entry in the tree (used to state the claims about
traversal results). -/
def allEntries (nodes : List Node) : List Entry :=
  match nodes with
  | [] => []
  | Node.group _ children :: rest => allEntries children ++ allEntries rest
  | Node.entry e :: rest => e :: allEntries rest

/-- `show_entry` (main.rs:479): `some found`; `none` models the panic of
`entry.get(NAME_TAG_NAME).unwrap()` when the found entry has no Title.  The
field lines printed on a hit are display-only and elided. -/
def show_entry (nodes : List Node) (uuid : String) : Option Bool :=
  match nodes with
  | [] => some false
  | Node.group _ children :: rest =>
    match show_entry children uuid with
    | none => none
    | some true => some true
    | some false => show_entry rest uuid
  | Node.entry e :: rest =>
    if e.uuid = uuid then
      if (e.get "Title").isSome then some true else none
    else show_entry rest uuid

/-- `dump_entry_to_vcard` (main.rs:623): zero or one vCard record for an
entry.  `None` when the entry has no Title, no PhoneNumber field, or a
PhoneNumber that is not unprotected; otherwise the record text, with an EMAIL
line only for an unprotected Email field. -/
def dump_entry_to_vcard (entry : Entry) : Option String :=
  match entry.get_title with
  | none => none
  | some title =>
    match entry.fields.lookup "PhoneNumber" with
    | none => none
    | some (Value.Protected _) => none
    | some (Value.Unprotected phone_value) =>
      some ("BEGIN:VCARD\n" ++ "VERSION:4.0\n" ++
        "UID:urn:uuid:" ++ entry.uuid ++ "\n" ++
        "FN:" ++ title ++ "\n" ++
        "TEL:" ++ phone_value ++ "\n" ++
        (match entry.fields.lookup "Email" with
         | some (Value.Unprotected email_value) => "EMAIL:" ++ email_value ++ "\n"
         | _ => "") ++
        "END:VCARD" ++ "\n" ++ "\n")

/-- `dump_group_to_vcard` (main.rs:612): concatenation of the records of all
entries in pre-order (`unwrap_or("")` on skipped entries). -/
def dump_group_to_vcard (children : List Node) : String :=
  match children with
  | [] => ""
  | Node.entry e :: rest =>
    (dump_entry_to_vcard e).getD "" ++ dump_group_to_vcard rest
  | Node.group _ cs :: rest =>
    dump_group_to_vcard cs ++ dump_group_to_vcard rest

/-! ### External editor bridge (`edit_notes`, main.rs:565) -/

/-- Rust `str::split("\n")`: split a character list at each newline.  The
result always has at least one (possibly empty) piece. -/
def splitNl (l : List Char) : List (List Char) :=
  match l with
  | [] => [[]]
  | c :: rest =>
    match splitNl rest with
    | r :: rs => if c = '\n' then [] :: r :: rs else (c :: r) :: rs
    | [] => [[]]

/-- Rust `str::split("\\n")`: split at each literal backslash-n two-character
sequence (leftmost, non-overlapping). -/
def splitBsn (l : List Char) : List (List Char) :=
  match l with
  | [] => [[]]
  | '\\' :: 'n' :: rest => [] :: splitBsn rest
  | c :: rest =>
    match splitBsn rest with
    | r :: rs => (c :: r) :: rs
    | [] => [[]]

/-- Rust `char::is_whitespace` (the Unicode White_Space property). -/
def isRustWhitespace (c : Char) : Bool :=
  c ∈ ['\t', '\n', '\x0B', '\x0C', '\r', ' ', '\u0085', '\u00A0', '\u1680',
    '\u2000', '\u2001', '\u2002', '\u2003', '\u2004', '\u2005', '\u2006',
    '\u2007', '\u2008', '\u2009', '\u200A', '\u2028', '\u2029', '\u202F',
    '\u205F', '\u3000']

/-- Rust `str::trim_end`: drop trailing whitespace. -/
def trimEndChars (l : List Char) : List Char :=
  (l.reverse.dropWhile isRustWhitespace).reverse

/-- What `edit_notes` writes to the editor's input stream (main.rs:584-587):
for every line of the seed, the line followed by the two characters `\` `n`
(the escape is written after each line, including the last). -/
def encodeNotesWire (notes : List Char) : List Char :=
  ((splitNl notes).map (fun line => line ++ ['\\', 'n'])).flatten

/-- How `edit_notes` decodes the editor's output stream (main.rs:600-609):
split at each literal `\` `n`, append a real newline after every piece, then
trim trailing whitespace once on the overall result. -/
def decodeNotesOutput (out : List Char) : List Char :=
  trimEndChars (((splitBsn out).map (fun line => line ++ ['\n'])).flatten)

/-- The seed with every newline replaced by the two-character escape, used to
state what actually travels on the wire. -/
def escapeNl (l : List Char) : List Char :=
  (l.map (fun c => if c = '\n' then ['\\', 'n'] else [c])).flatten

/-! ### Line splitting (`shellwords::split`, main.rs:91) -/

/-- Parser state of `shellwords::split`: outside quotes, inside a
single-quoted section, or inside a double-quoted section. -/
inductive SwMode where
  | normal
  | inSingle
  | inDouble
deriving DecidableEq

/-- The whitespace class `\s` used by `shellwords` to separate words. -/
def swWhitespace (c : Char) : Bool :=
  c == ' ' || c == '\t' || c == '\n' || c == '\r' || c == '\x0b' || c == '\x0c'

/-- Word accumulator loop of `shellwords::split`: `cur` is the current word
(reversed), `inw` whether a word is in progress, `acc` the finished words
(reversed).  Single quotes group literally; double quotes group with
backslash escapes; a backslash escapes the next character; an unterminated
quote is the `MismatchedQuotes` error. -/
def swSplitAux (l : List Char) (mode : SwMode) (cur : List Char) (inw : Bool)
    (acc : List String) : Except String (List String) :=
  match l, mode with
  | [], SwMode.normal =>
    Except.ok ((if inw then String.mk cur.reverse :: acc else acc).reverse)
  | [], SwMode.inSingle => Except.error "MismatchedQuotes"
  | [], SwMode.inDouble => Except.error "MismatchedQuotes"
  | c :: rest, SwMode.normal =>
    if swWhitespace c then
      if inw then swSplitAux rest SwMode.normal [] false (String.mk cur.reverse :: acc)
      else swSplitAux rest SwMode.normal [] false acc
    else if c = '\'' then swSplitAux rest SwMode.inSingle cur true acc
    else if c = '"' then swSplitAux rest SwMode.inDouble cur true acc
    else if c = '\\' then
      match rest with
      | [] => swSplitAux [] SwMode.normal ('\\' :: cur) true acc
      | c2 :: rest2 => swSplitAux rest2 SwMode.normal (c2 :: cur) true acc
    else swSplitAux rest SwMode.normal (c :: cur) true acc
  | c :: rest, SwMode.inSingle =>
    if c = '\'' then swSplitAux rest SwMode.normal cur true acc
    else swSplitAux rest SwMode.inSingle (c :: cur) true acc
  | c :: rest, SwMode.inDouble =>
    if c = '"' then swSplitAux rest SwMode.normal cur true acc
    else if c = '\\' then
      match rest with
      | [] => Except.error "MismatchedQuotes"
      | c2 :: rest2 => swSplitAux rest2 SwMode.inDouble (c2 :: cur) true acc
    else swSplitAux rest SwMode.inDouble (c :: cur) true acc

/-- `shellwords::split` on one input line. -/
def swSplit (line : String) : Except String (List String) :=
  swSplitAux line.data SwMode.normal [] false []

/-! ### Change tracker and the command dispatcher (main.rs:87-392) -/

/-- Modelled from the spec: `Entry::update_history` (the spec's Change
Tracker `commit_if_changed`) is provided by the external keepass dependency;
its code is not under src/.  Per spec section 4.2 it compares the entry's
current `fields` and `tags` against the last committed `history` snapshot,
returns true and records the new snapshot if any field value, tag set, or
tag order differs, and returns false leaving the entry unchanged if the
post-edit state is byte-for-byte identical to what was last committed (an
entry with no snapshot yet always commits). -/
def update_history (e : Entry) : Entry × Bool :=
  match e.history with
  | [] => ({ e with history := [(e.fields, e.tags)] }, true)
  | (f, t) :: _ =>
    if f = e.fields ∧ t = e.tags then (e, false)
    else ({ e with history := (e.fields, e.tags) :: e.history }, true)

/-- Oracle inputs standing for the external collaborators of one command:
the store's save outcome (`none` = success; subsumes the reopening of the
database file), the editor bridge's outcome, the uuid minted for `add`, the
outcome of opening the vCard output file, and that file's prior content. -/
structure Ctx where
  saveResult : Option String
  editorResult : Except String String
  newUuid : String
  openOutResult : Option String
  priorFile : List Char

/-- Outcome of dispatching one input line: continue the loop with the new
tree, the printed lines, whether a save was issued, and the content written
to the vCard output file when one was; or a panic (process abort); or an
error propagated out of `main` by `?` (process exit); or the `exit`
command. -/
inductive StepResult where
  | cont (db : List Node) (out : List String) (saved : Bool)
      (written : Option (List Char))
  | panik (msg : String)
  | fatal (msg : String)
  | halt

/-- Whether the session loop reaches the prompt again after the step. -/
def continuesSession : StepResult → Bool
  | StepResult.cont _ _ _ _ => true
  | _ => false

/-- `File::options().create(true).write(true)` + `write_all`
(main.rs:183-185): the file is created if missing but NOT truncated, so the
new bytes overwrite a prefix and any longer prior content keeps its tail. -/
def writeAll (prior data : List Char) : List Char :=
  data ++ prior.drop data.length

/-- The message lines of `print_available_commands` (main.rs:551). -/
def availableCommands : List String :=
  ["ls - List all the contacts",
   "search - Search for a contact",
   "add - Add a new contact",
   "show - Show a contact's information",
   "edit - Edit a contact",
   "export-vcard - Export the database to vcard v4 format",
   "edit-field - Edit a custom field on a contact",
   "edit-notes - Edit the notes of a contact",
   "help - Display the help for a command",
   "? - Print the list of available commands",
   "exit - Exit the application"]

/-- Stand-in for the usage/error text clap prints (via `e.print()?`) when a
command's argument validation fails; the session then continues. -/
def clapError : String :=
  "error: invalid arguments"

/-- Common tail of the three edit commands (main.rs:226-233, 262-269,
352-359): run the change tracker on the edited entry, write it back into the
tree, and save the database iff it reports a modification (the save and the
reopening of the database file abort the session through `?` on failure). -/
def commitEntry (ctx : Ctx) (db : List Node) (uuid : String) (e2 : Entry) :
    StepResult :=
  let r := update_history e2
  let db2 := replaceEntryByUuid db uuid r.1
  if r.2 then
    match ctx.saveResult with
    | none =>
      StepResult.cont db2 ["The entry was modified. Saving the database."] true none
    | some err => StepResult.fatal err
  else StepResult.cont db2 ["The entry was not modified."] false none

/-- The optional flag values of the `edit` command. -/
structure EditArgs where
  b : Option String := none
  a : Option String := none
  e : Option String := none
  p : Option String := none
  m : Option String := none
  n : Option String := none
  t : Option String := none

/-- clap's parse of the `edit` command line (main.rs:277-287): one required
positional uuid plus optional valued flags; an unknown flag, a missing flag
value, a missing uuid, or an extra positional is a parse error. -/
def parseEditArgs (args : List String) (uuidOpt : Option String)
    (ea : EditArgs) : Except String (String × EditArgs) :=
  match args with
  | [] =>
    match uuidOpt with
    | some u => Except.ok (u, ea)
    | none => Except.error clapError
  | f :: rest =>
    if f = "-b" || f = "--birthdate" then
      match rest with
      | v :: r2 => parseEditArgs r2 uuidOpt { ea with b := some v }
      | [] => Except.error clapError
    else if f = "-a" || f = "--address" then
      match rest with
      | v :: r2 => parseEditArgs r2 uuidOpt { ea with a := some v }
      | [] => Except.error clapError
    else if f = "-m" || f = "--matrix" then
      match rest with
      | v :: r2 => parseEditArgs r2 uuidOpt { ea with m := some v }
      | [] => Except.error clapError
    else if f = "-n" || f = "--nickname" then
      match rest with
      | v :: r2 => parseEditArgs r2 uuidOpt { ea with n := some v }
      | [] => Except.error clapError
    else if f = "-p" || f = "--phone" then
      match rest with
      | v :: r2 => parseEditArgs r2 uuidOpt { ea with p := some v }
      | [] => Except.error clapError
    else if f = "-t" || f = "--tags" then
      match rest with
      | v :: r2 => parseEditArgs r2 uuidOpt { ea with t := some v }
      | [] => Except.error clapError
    else if f = "-e" || f = "--email" then
      match rest with
      | v :: r2 => parseEditArgs r2 uuidOpt { ea with e := some v }
      | [] => Except.error clapError
    else if f.data.head? = some '-' then Except.error clapError
    else
      match uuidOpt with
      | none => parseEditArgs rest (some f) ea
      | some _ => Except.error clapError

/-- The flag applications of the `edit` handler (main.rs:295-350), in source
order: birth date, address, email, phone, matrix id, nickname, then `--tags`
replacing the whole tag list by the comma-split flag value. -/
def applyEditFlags (entry : Entry) (ea : EditArgs) : Entry :=
  let e1 :=
    match ea.b with
    | some v => { entry with fields := insertAssoc entry.fields "BirthDate" (Value.Unprotected v) }
    | none => entry
  let e2 :=
    match ea.a with
    | some v => { e1 with fields := insertAssoc e1.fields "Address" (Value.Unprotected v) }
    | none => e1
  let e3 :=
    match ea.e with
    | some v => { e2 with fields := insertAssoc e2.fields "Email" (Value.Unprotected v) }
    | none => e2
  let e4 :=
    match ea.p with
    | some v => { e3 with fields := insertAssoc e3.fields "PhoneNumber" (Value.Unprotected v) }
    | none => e3
  let e5 :=
    match ea.m with
    | some v => { e4 with fields := insertAssoc e4.fields "MatrixID" (Value.Unprotected v) }
    | none => e4
  let e6 :=
    match ea.n with
    | some v => { e5 with fields := insertAssoc e5.fields "Nickname" (Value.Unprotected v) }
    | none => e5
  match ea.t with
  | some ts => { e6 with tags := ts.splitOn "," }
  | none => e6

/-- The command dispatch of the session loop (main.rs:100-376) on the words
of one input line.  Printing is collected into the output list; lookups and
mutations act on `db`; external effects go through the `Ctx` oracles.  The
per-field lines printed by a successful `show` are display-only and
elided. -/
def dispatch (ctx : Ctx) (db : List Node) (args : List String) : StepResult :=
  match args with
  | [] => StepResult.cont db [] false none
  | command_name :: command_args =>
    match command_name with
    | "ls" =>
      match command_args with
      | [] => StepResult.cont db (display_entries db none) false none
      | [f, t] =>
        if f = "-t" || f = "--tag" then
          StepResult.cont db (display_entries db (some t)) false none
        else StepResult.cont db [clapError] false none
      | _ => StepResult.cont db [clapError] false none
    | "show" =>
      let out1 :=
        if command_args.length ≠ 1 then ["Invalid number of arguments."] else []
      match command_args with
      | [] => StepResult.panik "index out of bounds: the len is 0 but the index is 0"
      | entry_uuid :: _ =>
        match show_entry db entry_uuid with
        | none => StepResult.panik "called Option::unwrap on a None value"
        | some true => StepResult.cont db out1 false none
        | some false =>
          StepResult.cont db (out1 ++ ["Could not find entry " ++ entry_uuid]) false none
    | "search" =>
      match command_args with
      | [term] => StepResult.cont db (search_entries db term) false none
      | _ => StepResult.cont db [clapError] false none
    | "add" =>
      match command_args with
      | [nm] =>
        let new_entry : Entry :=
          { uuid := ctx.newUuid,
            fields := [("Title", Value.Unprotected nm)],
            tags := [], history := [] }
        let r := update_history new_entry
        let db2 := db ++ [Node.entry r.1]
        match ctx.saveResult with
        | none =>
          StepResult.cont db2
            ["Entry " ++ ctx.newUuid ++ " was added to the database."] true none
        | some err => StepResult.fatal err
      | _ => StepResult.cont db [clapError] false none
    | "export-vcard" =>
      match command_args with
      | [out_path] =>
        let vcard_dump := dump_group_to_vcard db
        match ctx.openOutResult with
        | some err => StepResult.fatal err
        | none =>
          StepResult.cont db ["The contacts were exported to " ++ out_path] false
            (some (writeAll ctx.priorFile vcard_dump.data))
      | _ => StepResult.cont db [clapError] false none
    | "edit-notes" =>
      match command_args with
      | [uuid] =>
        match get_entry_by_uuid db uuid with
        | none => StepResult.panik ("Could not find entry with uuid " ++ uuid)
        | some entry =>
          let notes :=
            match entry.fields.lookup "Notes" with
            | some nt => nt
            | none => Value.Unprotected ""
          match notes with
          | Value.Protected _ => StepResult.cont db [] false none
          | Value.Unprotected _ =>
            match entry.get_title with
            | none => StepResult.panik "called Option::unwrap on a None value"
            | some _ =>
              match ctx.editorResult with
              | Except.error msg => StepResult.cont db [msg] false none
              | Except.ok edited_notes =>
                commitEntry ctx db uuid
                  { entry with
                    fields := insertAssoc entry.fields "Notes"
                      (Value.Unprotected edited_notes) }
      | _ => StepResult.cont db [clapError] false none
    | "edit-field" =>
      match command_args with
      | [uuid, field_name, field_value] =>
        match get_entry_by_uuid db uuid with
        | none => StepResult.panik ("Could not find entry with uuid " ++ uuid)
        | some entry =>
          commitEntry ctx db uuid
            { entry with
              fields := insertAssoc entry.fields field_name
                (Value.Unprotected field_value) }
      | _ => StepResult.cont db [clapError] false none
    | "edit" =>
      match parseEditArgs command_args none {} with
      | Except.error msg => StepResult.cont db [msg] false none
      | Except.ok (uuid, ea) =>
        match get_entry_by_uuid db uuid with
        | none => StepResult.panik ("Could not find entry with uuid " ++ uuid)
        | some entry => commitEntry ctx db uuid (applyEditFlags entry ea)
    | "help" => StepResult.cont db [] false none
    | "?" => StepResult.cont db availableCommands false none
    | "exit" => StepResult.halt
    | _ => StepResult.cont db ["Invalid command " ++ command_name] false none

/-- One iteration of the session loop on a read line (main.rs:90-98): split
the line with `shellwords::split` — whose error aborts the session through
`?` — skip empty lines, then dispatch. -/
def processLine (ctx : Ctx) (db : List Node) (line : String) : StepResult :=
  match swSplit line with
  | Except.error e => StepResult.fatal e
  | Except.ok args =>
    if args.isEmpty then StepResult.cont db [] false none
    else dispatch ctx db args

/-! ### Concrete fixtures used to evaluate the model on closed inputs -/

/-- An entry with only a Title and an unprotected PhoneNumber. -/
def entryJane : Entry :=
  { uuid := "id1",
    fields := [("Title", Value.Unprotected "Jane"),
               ("PhoneNumber", Value.Unprotected "+15550100")],
    tags := [], history := [] }

/-- An entry whose PhoneNumber is protected (and Title present). -/
def entryProtPhone : Entry :=
  { uuid := "id2",
    fields := [("Title", Value.Unprotected "Bob"),
               ("PhoneNumber", Value.Protected "+15550199")],
    tags := [], history := [] }

/-- An entry whose Title is "x" and whose PhoneNumber value is "A1". -/
def entryPhoneA1 : Entry :=
  { uuid := "u1",
    fields := [("Title", Value.Unprotected "x"),
               ("PhoneNumber", Value.Unprotected "A1")],
    tags := [], history := [] }

/-- An entry with a Title only. -/
def entryTitled : Entry :=
  { uuid := "w1", fields := [("Title", Value.Unprotected "W")],
    tags := [], history := [] }

/-- An entry with a Title and a tag. -/
def entryTagged : Entry :=
  { uuid := "t1", fields := [("Title", Value.Unprotected "Amy")],
    tags := ["friends"], history := [] }

/-- An entry without a Title. -/
def entryUntitled : Entry :=
  { uuid := "n1", fields := [("Notes", Value.Unprotected "no name")],
    tags := [], history := [] }

/-- An entry whose Notes value is protected. -/
def entryProtNotes : Entry :=
  { uuid := "p1",
    fields := [("Title", Value.Unprotected "P"),
               ("Notes", Value.Protected "secret")],
    tags := [], history := [] }

/-- A small tree with a group level, a titled tagged entry, and an untitled
entry. -/
def treeSmall : List Node :=
  [Node.group "g" [Node.entry entryTagged, Node.entry entryUntitled],
   Node.entry entryTitled]

/-- Oracle values for steps whose external collaborators all fail: the store
save and the editor report errors. -/
def ctxFailing : Ctx :=
  { saveResult := some "save failed",
    editorResult := Except.error "editor failed",
    newUuid := "new-uuid", openOutResult := none, priorFile := [] }

/-- Oracle values for steps whose external collaborators all succeed. -/
def ctxOk : Ctx :=
  { saveResult := none, editorResult := Except.ok "edited",
    newUuid := "new-uuid", openOutResult := none, priorFile := [] }

/-- The vCard record the encoder produces for `entryJane`. -/
def vcardJane : String :=
  "BEGIN:VCARD\nVERSION:4.0\nUID:urn:uuid:id1\nFN:Jane\nTEL:+15550100\nEND:VCARD\n\n"

/-- A prior export file content strictly longer than the new dump: the new
dump followed by stale bytes. -/
def priorExportFile : List Char :=
  (vcardJane ++ "STALE-BYTES-FROM-OLDER-EXPORT").data

/-- Oracle values for an export step over a file that already holds
`priorExportFile`. -/
def ctxExport : Ctx :=
  { saveResult := none, editorResult := Except.ok "",
    newUuid := "new-uuid", openOutResult := none,
    priorFile := priorExportFile }

/-! ### Helper lemmas -/

theorem char_toLower_toNat (c : Char) :
    (Char.toLower c).toNat =
      if c.toNat ≥ 65 ∧ c.toNat ≤ 90 then c.toNat + 32 else c.toNat := by
  unfold Char.toLower
  split
  · next h =>
    have hv : Nat.isValidChar (c.toNat + 32) := Or.inl (by omega)
    unfold Char.ofNat
    simp only [if_pos h]
    simp only [dif_pos hv]
    simp [Char.ofNatAux, Char.toNat, UInt32.toNat]
  · next h => rw [if_neg h]

theorem char_toLower_idem (c : Char) :
    Char.toLower (Char.toLower c) = Char.toLower c := by
  have h := char_toLower_toNat c
  by_cases h2 : (Char.toLower c).toNat ≥ 65 ∧ (Char.toLower c).toNat ≤ 90
  · exfalso
    split at h <;> omega
  · conv_lhs => rw [Char.toLower]
    rw [if_neg h2]

theorem toLowerStr_idem (s : String) : toLowerStr (toLowerStr s) = toLowerStr s := by
  simp only [toLowerStr, List.map_map]
  congr 1
  exact List.map_congr_left fun c _ => char_toLower_idem c

theorem insertAssoc_idem (l : List (String × Value)) (k : String) (v : Value) :
    insertAssoc (insertAssoc l k v) k v = insertAssoc l k v := by
  induction l with
  | nil => simp [insertAssoc]
  | cons kv rest ih =>
    obtain ⟨k2, v2⟩ := kv
    by_cases h : k2 = k
    · simp [insertAssoc, h]
    · simp [insertAssoc, h, ih]

theorem splitNl_ne_nil (l : List Char) : splitNl l ≠ [] := by
  cases l with
  | nil => simp [splitNl]
  | cons c rest =>
    rw [splitNl]
    rcases h : splitNl rest with _ | ⟨r, rs⟩
    · simp
    · by_cases hc : c = '\n' <;> simp [hc]

theorem escapeNl_cons (c : Char) (l : List Char) :
    escapeNl (c :: l) =
      (if c = '\n' then ['\\', 'n'] else [c]) ++ escapeNl l := by
  simp [escapeNl]

theorem encodeNotesWire_eq_escape (l : List Char) :
    encodeNotesWire l = escapeNl l ++ ['\\', 'n'] := by
  induction l with
  | nil => rfl
  | cons c rest ih =>
    rcases h : splitNl rest with _ | ⟨r, rs⟩
    · exact absurd h (splitNl_ne_nil rest)
    · have hw : encodeNotesWire rest =
          (r ++ ['\\', 'n']) ++ ((rs.map fun line => line ++ ['\\', 'n'])).flatten := by
        rw [encodeNotesWire, h]
        simp
      have hX : (r ++ ['\\', 'n']) ++
          ((rs.map fun line => line ++ ['\\', 'n'])).flatten =
          escapeNl rest ++ ['\\', 'n'] := hw.symm.trans ih
      simp only [List.append_assoc, List.cons_append, List.nil_append] at hX
      by_cases hc : c = '\n'
      · have hsplit : splitNl (c :: rest) = [] :: r :: rs := by
          simp [splitNl, h, hc]
        rw [encodeNotesWire, hsplit, escapeNl_cons, if_pos hc]
        simp only [List.map_cons, List.flatten_cons, List.append_assoc,
          List.cons_append, List.nil_append]
        rw [hX]
      · have hsplit : splitNl (c :: rest) = (c :: r) :: rs := by
          simp [splitNl, h, hc]
        rw [encodeNotesWire, hsplit, escapeNl_cons, if_neg hc]
        simp only [List.map_cons, List.flatten_cons, List.append_assoc,
          List.cons_append, List.nil_append]
        rw [hX]

theorem update_history_of_head (e : Entry)
    (h : e.history.head? = some (e.fields, e.tags)) :
    update_history e = (e, false) := by
  rcases hh : e.history with _ | ⟨⟨f, t⟩, rest⟩
  · rw [hh] at h
    simp at h
  · rw [hh] at h
    simp at h
    simp [update_history, hh, h.1, h.2]

theorem update_history_snd_true (e : Entry)
    (h : e.history.head? ≠ some (e.fields, e.tags)) :
    (update_history e).2 = true := by
  rcases hh : e.history with _ | ⟨⟨f, t⟩, rest⟩
  · rw [update_history, hh]
  · have hne : ¬(f = e.fields ∧ t = e.tags) := by
      intro hcon
      apply h
      rw [hh]
      simp [hcon.1, hcon.2]
    simp [update_history, hh, hne]

theorem update_history_preserves (e : Entry) :
    (update_history e).1.uuid = e.uuid ∧ (update_history e).1.fields = e.fields
    ∧ (update_history e).1.tags = e.tags := by
  rcases hh : e.history with _ | ⟨⟨f, t⟩, rest⟩
  · simp [update_history, hh]
  · by_cases hc : f = e.fields ∧ t = e.tags
    · simp [update_history, hh, hc.1, hc.2]
    · simp [update_history, hh, hc]

theorem update_history_head_after (e : Entry)
    (h : (update_history e).2 = true) :
    (update_history e).1.history.head? = some (e.fields, e.tags) := by
  rcases hh : e.history with _ | ⟨⟨f, t⟩, rest⟩
  · simp [update_history, hh]
  · by_cases hc : f = e.fields ∧ t = e.tags
    · rw [update_history_of_head e (by rw [hh]; simp [hc.1, hc.2])] at h
      simp at h
    · simp [update_history, hh, hc]

/-! Unfolding equations for the tree recursions (their definitions are
compiled by well-founded recursion, so these are proved from `eq_def` once
and used everywhere). -/

theorem gme_nil (t : Option String) : get_matching_entries [] t = [] := by
  rw [get_matching_entries.eq_def]

theorem gme_group (nm : String) (children rest : List Node) (t : Option String) :
    get_matching_entries (Node.group nm children :: rest) t =
      get_matching_entries children t ++ get_matching_entries rest t := by
  rw [get_matching_entries.eq_def]

theorem gme_entry (e : Entry) (rest : List Node) (t : Option String) :
    get_matching_entries (Node.entry e :: rest) t =
      (if e.get_title = none then []
       else
         match t with
         | some tag => if e.tags.contains tag then [e] else []
         | none => [e]) ++ get_matching_entries rest t := by
  rw [get_matching_entries.eq_def]

theorem allEntries_nil : allEntries [] = [] := by
  rw [allEntries.eq_def]

theorem allEntries_group (nm : String) (children rest : List Node) :
    allEntries (Node.group nm children :: rest) =
      allEntries children ++ allEntries rest := by
  rw [allEntries.eq_def]

theorem allEntries_entry (e : Entry) (rest : List Node) :
    allEntries (Node.entry e :: rest) = e :: allEntries rest := by
  rw [allEntries.eq_def]

theorem searchLoop_nil (st : String) : searchLoop st [] = [] := by
  rw [searchLoop.eq_def]

theorem searchLoop_group (st nm : String) (children rest : List Node) :
    searchLoop st (Node.group nm children :: rest) =
      search_entries children st ++ searchLoop st rest := by
  rw [searchLoop.eq_def]

theorem searchLoop_entry (st : String) (e : Entry) (rest : List Node) :
    searchLoop st (Node.entry e :: rest) =
      searchEntryLines st e ++ searchLoop st rest := by
  rw [searchLoop.eq_def]

theorem dump_group_nil : dump_group_to_vcard [] = "" := by
  rw [dump_group_to_vcard.eq_def]

theorem dump_group_entry (e : Entry) (rest : List Node) :
    dump_group_to_vcard (Node.entry e :: rest) =
      (dump_entry_to_vcard e).getD "" ++ dump_group_to_vcard rest := by
  rw [dump_group_to_vcard.eq_def]

theorem dump_group_group (nm : String) (cs rest : List Node) :
    dump_group_to_vcard (Node.group nm cs :: rest) =
      dump_group_to_vcard cs ++ dump_group_to_vcard rest := by
  rw [dump_group_to_vcard.eq_def]

theorem show_entry_nil (u : String) : show_entry [] u = some false := by
  rw [show_entry.eq_def]

/-! Tree lemmas proved by the functional induction principles of the
recursions. -/

theorem uuid_of_get_entry (nodes : List Node) (u : String) :
    ∀ e, get_entry_by_uuid nodes u = some e → e.uuid = u := by
  induction nodes, u using get_entry_by_uuid.induct with
  | case1 u =>
    intro e h
    simp [get_entry_by_uuid] at h
  | case2 u nm children rest efound hm ih =>
    intro e h
    rw [get_entry_by_uuid, hm] at h
    exact ih e (hm.trans h)
  | case3 u nm children rest hm ih1 ih2 =>
    intro e h
    rw [get_entry_by_uuid, hm] at h
    exact ih2 e h
  | case4 e2 rest =>
    intro e h
    rw [get_entry_by_uuid, if_pos rfl] at h
    cases h
    rfl
  | case5 u e2 rest hne ih =>
    intro e h
    rw [get_entry_by_uuid, if_neg hne] at h
    exact ih e h

theorem get_entry_replace (nodes : List Node) (u : String) (e2 : Entry) :
    ∀ e, get_entry_by_uuid nodes u = some e → e2.uuid = u →
      get_entry_by_uuid (replaceEntryByUuid nodes u e2) u = some e2 := by
  induction nodes, u using get_entry_by_uuid.induct with
  | case1 u =>
    intro e h _
    simp [get_entry_by_uuid] at h
  | case2 u nm children rest efound hm ih =>
    intro e h h2
    rw [replaceEntryByUuid, if_pos (by simp [hm])]
    rw [get_entry_by_uuid, ih efound hm h2]
  | case3 u nm children rest hm ih1 ih2 =>
    intro e h h2
    rw [get_entry_by_uuid, hm] at h
    rw [replaceEntryByUuid, if_neg (by simp [hm])]
    rw [get_entry_by_uuid, hm]
    exact ih2 e h h2
  | case4 efound rest =>
    intro e h h2
    rw [replaceEntryByUuid, if_pos rfl]
    rw [get_entry_by_uuid, if_pos h2]
  | case5 u efound rest hne ih =>
    intro e h h2
    rw [get_entry_by_uuid, if_neg hne] at h
    rw [replaceEntryByUuid, if_neg hne]
    rw [get_entry_by_uuid, if_neg hne]
    exact ih e h h2

theorem replace_entry_self (nodes : List Node) (u : String) :
    ∀ e, get_entry_by_uuid nodes u = some e →
      replaceEntryByUuid nodes u e = nodes := by
  induction nodes, u using get_entry_by_uuid.induct with
  | case1 u =>
    intro e h
    simp [get_entry_by_uuid] at h
  | case2 u nm children rest efound hm ih =>
    intro e h
    rw [get_entry_by_uuid, hm] at h
    have he : efound = e := by simpa using h
    subst he
    rw [replaceEntryByUuid, if_pos (by simp [hm]), ih efound hm]
  | case3 u nm children rest hm ih1 ih2 =>
    intro e h
    rw [get_entry_by_uuid, hm] at h
    rw [replaceEntryByUuid, if_neg (by simp [hm]), ih2 e h]
  | case4 efound rest =>
    intro e h
    rw [get_entry_by_uuid, if_pos rfl] at h
    cases h
    rw [replaceEntryByUuid, if_pos rfl]
  | case5 u efound rest hne ih =>
    intro e h
    rw [get_entry_by_uuid, if_neg hne] at h
    rw [replaceEntryByUuid, if_neg hne, ih e h]

theorem titled_of_mem_matching (nodes : List Node) (tag_option : Option String) :
    ∀ e, e ∈ get_matching_entries nodes tag_option → e.get_title.isSome := by
  induction nodes, tag_option using get_matching_entries.induct with
  | case1 t =>
    intro e h
    rw [gme_nil] at h
    simp at h
  | case2 t nm children rest ih1 ih2 =>
    intro e h
    rw [gme_group] at h
    rcases List.mem_append.mp h with h1 | h1
    · exact ih1 e h1
    · exact ih2 e h1
  | case3 t e2 rest ih =>
    intro e h
    rw [gme_entry] at h
    rcases List.mem_append.mp h with h1 | h1
    · by_cases ht : e2.get_title = none
      · simp [ht] at h1
      · rcases t with _ | tag
        · simp [ht] at h1
          subst h1
          simpa [Option.isSome_iff_ne_none] using ht
        · simp [ht] at h1
          obtain ⟨-, h1⟩ := h1
          subst h1
          simpa [Option.isSome_iff_ne_none] using ht
    · exact ih e h1

theorem count_matching_none (nodes : List Node) (e : Entry)
    (h : e.get_title.isSome) :
    (get_matching_entries nodes none).count e = (allEntries nodes).count e := by
  refine get_matching_entries.induct
    (fun nodes t => t = none →
      (get_matching_entries nodes t).count e = (allEntries nodes).count e)
    ?_ ?_ ?_ nodes none rfl
  · intro t _
    rw [gme_nil, allEntries_nil]
  · intro t nm children rest ih1 ih2 ht
    rw [gme_group, allEntries_group]
    rw [List.count_append, List.count_append, ih1 ht, ih2 ht]
  · intro t e2 rest ih ht
    subst ht
    rw [gme_entry, allEntries_entry]
    rw [List.count_append, List.count_cons, ih rfl]
    by_cases ht2 : e2.get_title = none
    · have hne : e2 ≠ e := by
        intro he
        subst he
        rw [ht2] at h
        simp at h
      simp [ht2, hne]
    · by_cases he : e = e2
      · subst he
        simp [ht2, List.count_cons, Nat.add_comm]
      · have hne2 : ¬e2 = e := fun hx => he hx.symm
        simp [ht2, List.count_cons, he, hne2]

theorem searchLoop_flat :
    ∀ (nodes : List Node) (term : String),
      search_entries nodes term =
        ((allEntries nodes).map (searchEntryLines (toLowerStr term))).flatten := by
  have H := search_entries.induct
    (fun nodes term =>
      search_entries nodes term =
        ((allEntries nodes).map (searchEntryLines (toLowerStr term))).flatten)
    (fun st nodes =>
      toLowerStr st = st →
        searchLoop st nodes =
          ((allEntries nodes).map (searchEntryLines st)).flatten)
  intro nodes term
  apply H
  · intro ns t ih
    rw [search_entries, ih (toLowerStr_idem t)]
  · intro st _
    rw [searchLoop_nil, allEntries_nil]
    rfl
  · intro st nm children rest ih1 ih2 hst
    rw [searchLoop_group, ih1, hst, ih2 hst, allEntries_group]
    simp
  · intro st e rest ih hst
    rw [searchLoop_entry, ih hst, allEntries_entry]
    simp

/-! ### The claims -/

/-- C1: for every Entry, `dump_entry_to_vcard` returns nothing when the entry
has no Title, has no PhoneNumber field, or has a protected PhoneNumber,
regardless of other fields; otherwise it returns exactly the record made of
the lines BEGIN:VCARD, VERSION:4.0, `UID:urn:uuid:<id>`, `FN:<Title>`,
`TEL:<phone>`, an EMAIL line if and only if an unprotected Email field
exists, and END:VCARD, followed by a blank-line separator. -/
theorem c1_encode_entry_rules (e : Entry) :
    ((e.get_title = none ∨ e.fields.lookup "PhoneNumber" = none ∨
        (∃ s, e.fields.lookup "PhoneNumber" = some (Value.Protected s))) →
      dump_entry_to_vcard e = none)
    ∧ (∀ title phone, e.get_title = some title →
        e.fields.lookup "PhoneNumber" = some (Value.Unprotected phone) →
        dump_entry_to_vcard e =
          some ("BEGIN:VCARD\n" ++ "VERSION:4.0\n" ++
            "UID:urn:uuid:" ++ e.uuid ++ "\n" ++
            "FN:" ++ title ++ "\n" ++
            "TEL:" ++ phone ++ "\n" ++
            (match e.fields.lookup "Email" with
             | some (Value.Unprotected email) => "EMAIL:" ++ email ++ "\n"
             | _ => "") ++
            "END:VCARD" ++ "\n" ++ "\n")) := by
  constructor
  · rintro (ht | hp | ⟨s, hp⟩)
    · simp [dump_entry_to_vcard, ht]
    · cases hts : e.get_title <;> simp [dump_entry_to_vcard, hts, hp]
    · cases hts : e.get_title <;> simp [dump_entry_to_vcard, hts, hp]
  · intro title phone ht hp
    simp [dump_entry_to_vcard, ht, hp]

/-- Witness for C1 at a concrete entry whose PhoneNumber is protected. -/
theorem c1_encode_entry_rules_witness :
    (entryProtPhone.get_title = none ∨
      entryProtPhone.fields.lookup "PhoneNumber" = none ∨
      (∃ s, entryProtPhone.fields.lookup "PhoneNumber" =
        some (Value.Protected s)))
    ∧ dump_entry_to_vcard entryProtPhone = none := by
  have h : entryProtPhone.get_title = none ∨
      entryProtPhone.fields.lookup "PhoneNumber" = none ∨
      (∃ s, entryProtPhone.fields.lookup "PhoneNumber" =
        some (Value.Protected s)) :=
    Or.inr (Or.inr ⟨"+15550199", by decide⟩)
  exact ⟨h, (c1_encode_entry_rules entryProtPhone).1 h⟩

/-- C2 counterexample: seeding the editor with `"line1\nline2"` does NOT put
exactly `"line1\\nline2"` on the wire: the loop writes the two-character
escape after every line, including the last, so the wire is
`"line1\\nline2\\n"`. -/
theorem c2_counterexample :
    encodeNotesWire ("line1\nline2").data = ("line1\\nline2\\n").data
    ∧ ("line1\\nline2\\n").data ≠ ("line1\\nline2").data := by
  exact ⟨by decide, by decide⟩

/-- C2 amended: for every seed, the wire content is the seed with each
literal newline replaced by the two-character escape backslash-n, followed by
one more trailing backslash-n written after the final line; decoding reverses
the escapes and trims trailing whitespace, so the round trip on the example
seed `"line1\nline2"` returns it unchanged. -/
theorem c2_amended_editor_wire :
    (∀ seed : List Char, encodeNotesWire seed = escapeNl seed ++ ['\\', 'n'])
    ∧ decodeNotesOutput (encodeNotesWire ("line1\nline2").data) =
        ("line1\nline2").data := by
  exact ⟨encodeNotesWire_eq_escape, by decide⟩

/-- C5: every entry returned by `get_matching_entries` has a Title, for every
tree and tag filter, so the `get_title().unwrap()` calls in
`display_entries` cannot fail. -/
theorem c5_matching_all_titled (nodes : List Node) (tag_option : Option String)
    (e : Entry) (h : e ∈ get_matching_entries nodes tag_option) :
    e.get_title.isSome :=
  titled_of_mem_matching nodes tag_option e h

/-- Witness for C5 at a concrete tree and tag filter. -/
theorem c5_matching_all_titled_witness :
    entryTagged ∈ get_matching_entries treeSmall (some "friends")
    ∧ entryTagged.get_title.isSome := by
  have hval : get_matching_entries treeSmall (some "friends") = [entryTagged] := by
    rw [treeSmall, gme_group, gme_entry, gme_entry, gme_nil, gme_entry, gme_nil]
    decide
  have hmem : entryTagged ∈ get_matching_entries treeSmall (some "friends") := by
    rw [hval]
    exact List.mem_singleton_self _
  exact ⟨hmem, c5_matching_all_titled treeSmall (some "friends") entryTagged hmem⟩

/-- C6 counterexample: the claim says a PhoneNumber matches iff the phone
value contains the term with no case folding applied; but the code lowercases
the term before the phone comparison, so phone "A1" does not match term "A"
even though "A1" contains "A". -/
theorem c6_counterexample :
    strContains "A1" "A" = true
    ∧ search_entries [Node.entry entryPhoneA1] "A" = [] := by
  constructor
  · decide
  · rw [search_entries, searchLoop_entry, searchLoop_nil]
    decide

/-- C6 amended: search lowers the term once and reports, in pre-order visit
order, one line per matching field per entry (`searchEntryLines`): Title and
Nickname match by case-folded substring, while PhoneNumber matches when the
raw phone value contains the case-folded term (the term is folded, the phone
value is not); each line carries the entry's id and the matched field's
value. -/
theorem c6_amended_search_report (nodes : List Node) (term : String) :
    search_entries nodes term =
      ((allEntries nodes).map (searchEntryLines (toLowerStr term))).flatten :=
  searchLoop_flat nodes term

/-- C4: listing without a tag filter shows each titled entry with exactly its
multiplicity in the tree (so exactly once under the store's unique-id
invariant), never shows an entry lacking a Title, and the displayed result is
sorted non-decreasing by Title under byte/codepoint order. -/
theorem c4_ls_listing (nodes : List Node) (e : Entry)
    (h : e.get_title.isSome) :
    (displaySorted nodes none).count e = (allEntries nodes).count e
    ∧ (∀ x ∈ displaySorted nodes none, x.get_title.isSome)
    ∧ List.Sorted titleLe (displaySorted nodes none) := by
  refine ⟨?_, ?_, ?_⟩
  · unfold displaySorted
    rw [(List.perm_insertionSort titleLe (get_matching_entries nodes none)).count_eq]
    exact count_matching_none nodes e h
  · intro x hx
    unfold displaySorted at hx
    exact titled_of_mem_matching nodes none x
      ((List.perm_insertionSort titleLe (get_matching_entries nodes none)).mem_iff.mp hx)
  · unfold displaySorted
    exact List.sorted_insertionSort titleLe (get_matching_entries nodes none)

/-- Witness for C4 at a concrete tree and titled entry. -/
theorem c4_ls_listing_witness :
    entryTitled.get_title.isSome
    ∧ ((displaySorted treeSmall none).count entryTitled =
          (allEntries treeSmall).count entryTitled
      ∧ (∀ x ∈ displaySorted treeSmall none, x.get_title.isSome)
      ∧ List.Sorted titleLe (displaySorted treeSmall none)) :=
  ⟨by decide, c4_ls_listing treeSmall entryTitled (by decide)⟩

/-- C3: `edit-field` run twice with the same id, field and value.  When the
inserted value differs from the last committed snapshot, the first run
reports a modification and saves; the second run finds the post-edit fields
and tags identical to the committed snapshot, `update_history` returns false,
the command reports "not modified", no save is issued, and the tree is left
exactly as after the first run. -/
theorem c3_edit_field_twice (ctx : Ctx) (db : List Node) (u f v : String)
    (e : Entry) (hfind : get_entry_by_uuid db u = some e)
    (hmod : e.history.head? ≠
      some (insertAssoc e.fields f (Value.Unprotected v), e.tags))
    (hsave : ctx.saveResult = none) :
    dispatch ctx db ["edit-field", u, f, v] =
      StepResult.cont
        (replaceEntryByUuid db u
          (update_history
            { e with fields := insertAssoc e.fields f (Value.Unprotected v) }).1)
        ["The entry was modified. Saving the database."] true none
    ∧ dispatch ctx
        (replaceEntryByUuid db u
          (update_history
            { e with fields := insertAssoc e.fields f (Value.Unprotected v) }).1)
        ["edit-field", u, f, v] =
      StepResult.cont
        (replaceEntryByUuid db u
          (update_history
            { e with fields := insertAssoc e.fields f (Value.Unprotected v) }).1)
        ["The entry was not modified."] false none := by
  have hr2 : (update_history
      { e with fields := insertAssoc e.fields f (Value.Unprotected v) }).2 = true :=
    update_history_snd_true _ hmod
  constructor
  · simp only [dispatch, hfind, commitEntry, hr2, if_true, hsave]
  · have hpres := update_history_preserves
      { e with fields := insertAssoc e.fields f (Value.Unprotected v) }
    have he1uuid : (update_history
        { e with fields := insertAssoc e.fields f (Value.Unprotected v) }).1.uuid = u := by
      rw [hpres.1]
      exact uuid_of_get_entry db u e hfind
    have hfind2 := get_entry_replace db u
      (update_history
        { e with fields := insertAssoc e.fields f (Value.Unprotected v) }).1
      e hfind he1uuid
    have hfields : (update_history
        { e with fields := insertAssoc e.fields f (Value.Unprotected v) }).1.fields =
        insertAssoc e.fields f (Value.Unprotected v) := hpres.2.1
    have hins : insertAssoc
        ((update_history
          { e with fields := insertAssoc e.fields f (Value.Unprotected v) }).1.fields)
        f (Value.Unprotected v) =
        (update_history
          { e with fields := insertAssoc e.fields f (Value.Unprotected v) }).1.fields := by
      rw [hfields]
      exact insertAssoc_idem e.fields f (Value.Unprotected v)
    have heta : ({ (update_history
        { e with fields := insertAssoc e.fields f (Value.Unprotected v) }).1 with
          fields := insertAssoc
            ((update_history
              { e with fields := insertAssoc e.fields f (Value.Unprotected v) }).1.fields)
            f (Value.Unprotected v) } : Entry) =
        (update_history
          { e with fields := insertAssoc e.fields f (Value.Unprotected v) }).1 := by
      rw [hins]
    have hhead : (update_history
        { e with fields := insertAssoc e.fields f (Value.Unprotected v) }).1.history.head? =
        some ((update_history
          { e with fields := insertAssoc e.fields f (Value.Unprotected v) }).1.fields,
          (update_history
            { e with fields := insertAssoc e.fields f (Value.Unprotected v) }).1.tags) := by
      rw [hpres.2.1, hpres.2.2]
      exact update_history_head_after _ hr2
    have hagain := update_history_of_head _ hhead
    have hreplace := replace_entry_self
      (replaceEntryByUuid db u
        (update_history
          { e with fields := insertAssoc e.fields f (Value.Unprotected v) }).1)
      u
      (update_history
        { e with fields := insertAssoc e.fields f (Value.Unprotected v) }).1
      hfind2
    simp only [dispatch, hfind2, commitEntry, heta, hagain, hreplace]
    rfl

/-- Witness for C3 at a concrete database and edit. -/
theorem c3_edit_field_twice_witness :
    get_entry_by_uuid [Node.entry entryTitled] "w1" = some entryTitled
    ∧ entryTitled.history.head? ≠
        some (insertAssoc entryTitled.fields "Notes" (Value.Unprotected "hello"),
          entryTitled.tags)
    ∧ ctxOk.saveResult = none
    ∧ (dispatch ctxOk [Node.entry entryTitled] ["edit-field", "w1", "Notes", "hello"] =
        StepResult.cont
          (replaceEntryByUuid [Node.entry entryTitled] "w1"
            (update_history
              { entryTitled with
                fields := insertAssoc entryTitled.fields "Notes"
                  (Value.Unprotected "hello") }).1)
          ["The entry was modified. Saving the database."] true none
      ∧ dispatch ctxOk
          (replaceEntryByUuid [Node.entry entryTitled] "w1"
            (update_history
              { entryTitled with
                fields := insertAssoc entryTitled.fields "Notes"
                  (Value.Unprotected "hello") }).1)
          ["edit-field", "w1", "Notes", "hello"] =
        StepResult.cont
          (replaceEntryByUuid [Node.entry entryTitled] "w1"
            (update_history
              { entryTitled with
                fields := insertAssoc entryTitled.fields "Notes"
                  (Value.Unprotected "hello") }).1)
          ["The entry was not modified."] false none) := by
  have hfind : get_entry_by_uuid [Node.entry entryTitled] "w1" = some entryTitled := by
    rw [get_entry_by_uuid]
    decide
  have hmod : entryTitled.history.head? ≠
      some (insertAssoc entryTitled.fields "Notes" (Value.Unprotected "hello"),
        entryTitled.tags) := by
    decide
  exact ⟨hfind, hmod, rfl,
    c3_edit_field_twice ctxOk [Node.entry entryTitled] "w1" "Notes" "hello"
      entryTitled hfind hmod rfl⟩

/-- C7 (code bug): `show` invoked with zero arguments does print "Invalid
number of arguments.", but the handler then evaluates `command_args[0]` on an
empty slice, so the session panics and aborts instead of returning to the
prompt as the claim requires. -/
theorem c7_show_no_args_panics (ctx : Ctx) (db : List Node) :
    processLine ctx db "show" =
      StepResult.panik "index out of bounds: the len is 0 but the index is 0"
    ∧ continuesSession (processLine ctx db "show") = false := by
  exact ⟨rfl, rfl⟩

/-- C8 counterexample: a malformed input line with an unbalanced quote is not
local and recoverable: `shellwords::split` fails and the `?` operator
propagates the error out of the session loop, terminating the program. -/
theorem c8_counterexample :
    processLine ctxOk [] "ls \"friends" = StepResult.fatal "MismatchedQuotes"
    ∧ continuesSession (processLine ctxOk [] "ls \"friends") = false := by
  exact ⟨rfl, rfl⟩

/-- C8 amended: user-input errors reported by argument validation (wrong
argument count, unknown command), lookup misses for `show`, and editor
failures are local and recoverable — the session continues; but a malformed
input line that fails shell-word splitting aborts the session through `?`,
an id absent from the tree given to `edit`, `edit-field`, or `edit-notes`
panics and aborts, and a persistence failure after a real modification also
aborts; only these aborts plus the store-open failure at startup end the
program. -/
theorem c8_amended_error_locality (ctx : Ctx) (db : List Node) :
    (∀ line err, swSplit line = Except.error err →
      processLine ctx db line = StepResult.fatal err)
    ∧ (∀ u, show_entry db u = some false →
        dispatch ctx db ["show", u] =
          StepResult.cont db ["Could not find entry " ++ u] false none)
    ∧ (∀ a b, dispatch ctx db ["search", a, b] =
        StepResult.cont db [clapError] false none)
    ∧ (dispatch ctx db ["frobnicate"] =
        StepResult.cont db ["Invalid command frobnicate"] false none)
    ∧ (∀ u f v, get_entry_by_uuid db u = none →
        dispatch ctx db ["edit-field", u, f, v] =
          StepResult.panik ("Could not find entry with uuid " ++ u))
    ∧ (∀ u, get_entry_by_uuid db u = none →
        dispatch ctx db ["edit-notes", u] =
          StepResult.panik ("Could not find entry with uuid " ++ u))
    ∧ (get_entry_by_uuid db "u1" = none →
        dispatch ctx db ["edit", "u1"] =
          StepResult.panik "Could not find entry with uuid u1")
    ∧ (∀ u e msg, get_entry_by_uuid db u = some e →
        e.fields.lookup "Notes" = none →
        e.get_title.isSome →
        ctx.editorResult = Except.error msg →
        dispatch ctx db ["edit-notes", u] = StepResult.cont db [msg] false none)
    ∧ (∀ u f v e err, get_entry_by_uuid db u = some e →
        ctx.saveResult = some err →
        (update_history
          { e with fields := insertAssoc e.fields f (Value.Unprotected v) }).2 = true →
        dispatch ctx db ["edit-field", u, f, v] = StepResult.fatal err) := by
  refine ⟨?_, ?_, ?_, ?_, ?_, ?_, ?_, ?_, ?_⟩
  · intro line err h
    simp only [processLine, h]
  · intro u h
    simp only [dispatch, h]
    rfl
  · intro a b
    rfl
  · rfl
  · intro u f v h
    simp only [dispatch, h]
  · intro u h
    simp only [dispatch, h]
  · intro h
    simp [dispatch, parseEditArgs, h]
  · intro u e msg hfind hnotes htitle heditor
    obtain ⟨t, ht⟩ := Option.isSome_iff_exists.mp htitle
    simp only [dispatch, hfind, hnotes, ht, heditor]
  · intro u f v e err hfind hsave hmodified
    simp only [dispatch, hfind, commitEntry, hmodified, if_true, hsave]

/-- Witness for C8: each hypothesised conjunct applied at a concrete
session. -/
theorem c8_amended_error_locality_witness :
    (swSplit "ls \"friends" = Except.error "MismatchedQuotes"
      ∧ processLine ctxFailing [Node.entry entryTitled] "ls \"friends" =
          StepResult.fatal "MismatchedQuotes")
    ∧ (show_entry [Node.entry entryTitled] "zz" = some false
      ∧ dispatch ctxFailing [Node.entry entryTitled] ["show", "zz"] =
          StepResult.cont [Node.entry entryTitled]
            ["Could not find entry " ++ "zz"] false none)
    ∧ (get_entry_by_uuid [Node.entry entryTitled] "zz" = none
      ∧ dispatch ctxFailing [Node.entry entryTitled] ["edit-field", "zz", "f", "v"] =
          StepResult.panik ("Could not find entry with uuid " ++ "zz"))
    ∧ (get_entry_by_uuid [Node.entry entryTitled] "zz" = none
      ∧ dispatch ctxFailing [Node.entry entryTitled] ["edit-notes", "zz"] =
          StepResult.panik ("Could not find entry with uuid " ++ "zz"))
    ∧ (get_entry_by_uuid [Node.entry entryTitled] "u1" = none
      ∧ dispatch ctxFailing [Node.entry entryTitled] ["edit", "u1"] =
          StepResult.panik "Could not find entry with uuid u1")
    ∧ (get_entry_by_uuid [Node.entry entryTitled] "w1" = some entryTitled
      ∧ entryTitled.fields.lookup "Notes" = none
      ∧ entryTitled.get_title.isSome
      ∧ ctxFailing.editorResult = Except.error "editor failed"
      ∧ dispatch ctxFailing [Node.entry entryTitled] ["edit-notes", "w1"] =
          StepResult.cont [Node.entry entryTitled] ["editor failed"] false none)
    ∧ (get_entry_by_uuid [Node.entry entryTitled] "w1" = some entryTitled
      ∧ ctxFailing.saveResult = some "save failed"
      ∧ (update_history
          { entryTitled with
            fields := insertAssoc entryTitled.fields "f" (Value.Unprotected "v") }).2 = true
      ∧ dispatch ctxFailing [Node.entry entryTitled] ["edit-field", "w1", "f", "v"] =
          StepResult.fatal "save failed") := by
  have hsplit : swSplit "ls \"friends" = Except.error "MismatchedQuotes" := rfl
  have hshow : show_entry [Node.entry entryTitled] "zz" = some false := by
    rw [show_entry, show_entry_nil]
    decide
  have hmiss : get_entry_by_uuid [Node.entry entryTitled] "zz" = none := by
    rw [get_entry_by_uuid, get_entry_by_uuid]
    decide
  have hmiss1 : get_entry_by_uuid [Node.entry entryTitled] "u1" = none := by
    rw [get_entry_by_uuid, get_entry_by_uuid]
    decide
  have hhit : get_entry_by_uuid [Node.entry entryTitled] "w1" = some entryTitled := by
    rw [get_entry_by_uuid]
    decide
  have hmodified : (update_history
      { entryTitled with
        fields := insertAssoc entryTitled.fields "f" (Value.Unprotected "v") }).2 = true := by
    decide
  refine ⟨⟨hsplit, (c8_amended_error_locality ctxFailing [Node.entry entryTitled]).1
      "ls \"friends" "MismatchedQuotes" hsplit⟩,
    ⟨hshow, (c8_amended_error_locality ctxFailing [Node.entry entryTitled]).2.1 "zz" hshow⟩,
    ⟨hmiss, (c8_amended_error_locality ctxFailing
      [Node.entry entryTitled]).2.2.2.2.1 "zz" "f" "v" hmiss⟩,
    ⟨hmiss, (c8_amended_error_locality ctxFailing
      [Node.entry entryTitled]).2.2.2.2.2.1 "zz" hmiss⟩,
    ⟨hmiss1, (c8_amended_error_locality ctxFailing
      [Node.entry entryTitled]).2.2.2.2.2.2.1 hmiss1⟩,
    ⟨hhit, by decide, by decide, rfl, (c8_amended_error_locality ctxFailing
      [Node.entry entryTitled]).2.2.2.2.2.2.2.1 "w1" entryTitled "editor failed"
      hhit (by decide) (by decide) rfl⟩,
    ⟨hhit, rfl, hmodified, (c8_amended_error_locality ctxFailing
      [Node.entry entryTitled]).2.2.2.2.2.2.2.2 "w1" "f" "v" entryTitled
      "save failed" hhit rfl hmodified⟩⟩

set_option maxRecDepth 8000 in
/-- C9 (code bug): `export-vcard` opens the output file with create+write but
without truncation, so when the prior content is longer than the new dump the
stale tail survives: the final file content is the dump followed by the old
bytes, not exactly the dump as the claim requires. -/
theorem c9_export_leaves_stale_tail :
    dispatch ctxExport [Node.entry entryJane] ["export-vcard", "out.vcf"] =
      StepResult.cont [Node.entry entryJane]
        ["The contacts were exported to out.vcf"] false
        (some ((vcardJane ++ "STALE-BYTES-FROM-OLDER-EXPORT").data))
    ∧ (vcardJane ++ "STALE-BYTES-FROM-OLDER-EXPORT").data ≠ vcardJane.data := by
  have hdump : dump_group_to_vcard [Node.entry entryJane] = vcardJane := by
    rw [dump_group_entry, dump_group_nil]
    decide
  have hwrite : writeAll ctxExport.priorFile vcardJane.data =
      (vcardJane ++ "STALE-BYTES-FROM-OLDER-EXPORT").data := by
    decide
  constructor
  · simp only [dispatch, hdump, hwrite]
    rfl
  · decide

/-- C10: when the entry's Notes value is protected, the `edit-notes` handler
hits the `continue` branch before spawning any editor: nothing is printed, no
save is issued, and the tree is returned unchanged. -/
theorem c10_edit_notes_protected_skips (ctx : Ctx) (db : List Node)
    (u s : String) (e : Entry)
    (hfind : get_entry_by_uuid db u = some e)
    (hnotes : e.fields.lookup "Notes" = some (Value.Protected s)) :
    dispatch ctx db ["edit-notes", u] = StepResult.cont db [] false none := by
  simp only [dispatch, hfind, hnotes]

/-- Witness for C10 at a concrete entry with protected Notes. -/
theorem c10_edit_notes_protected_skips_witness :
    get_entry_by_uuid [Node.entry entryProtNotes] "p1" = some entryProtNotes
    ∧ entryProtNotes.fields.lookup "Notes" = some (Value.Protected "secret")
    ∧ dispatch ctxOk [Node.entry entryProtNotes] ["edit-notes", "p1"] =
        StepResult.cont [Node.entry entryProtNotes] [] false none := by
  have hfind : get_entry_by_uuid [Node.entry entryProtNotes] "p1" =
      some entryProtNotes := by
    rw [get_entry_by_uuid]
    decide
  exact ⟨hfind, by decide,
    c10_edit_notes_protected_skips ctxOk [Node.entry entryProtNotes] "p1"
      "secret" entryProtNotes hfind (by decide)⟩

end KeepInTouch
